import Mathlib

/-!
Verification development for the sentiment-analysis core of the
`nlp-app-assignment2` repository (`sentiment_analyzer.py`).

Modelling choices:
* Python floats are embedded as exact rationals (`ℚ`); `round(x, 3)` is
  embedded as `round3` below (rounding to 3 decimal places).
* Text is embedded as `List Char`; Python's `str.lower()` is `Char.toLower`
  per character, and `in` (substring containment) is `containsPhrase`.
* The external NLP libraries (the VADER lexicon scorer, the TextBlob
  polarity scorer, NLTK tokenizers, stopword list and lemmatizer) are not
  part of the repository; they are modelled as an abstract `NlpBackend`
  record of functions, with their documented output ranges taken as
  hypotheses where a theorem needs them.
-/

namespace NlpApp

abbrev Text := List Char

/-- The three sentiment labels produced by the analyzer. -/
inductive Sentiment where
  | positive
  | negative
  | neutral
deriving DecidableEq, Repr

/-- VADER polarity scores (`analyze_sentiment_vader` result). -/
structure VaderScores where
  positive : ℚ
  negative : ℚ
  neutral : ℚ
  compound : ℚ
deriving DecidableEq, Repr

/-- TextBlob scores (`analyze_sentiment_textblob` result). -/
structure TextblobScores where
  polarity : ℚ
  subjectivity : ℚ
deriving DecidableEq, Repr

/-- One entry of the `sentence_sentiments` list built in
`get_detailed_analysis`. -/
structure SentenceSentiment where
  sentence : Text
  sentiment : Sentiment
  confidence : ℚ
deriving DecidableEq, Repr

/-- Rounding to 3 decimal places, embedding Python's `round(x, 3)`.
(Python rounds ties to even; `round` rounds ties up. The two agree away
from exact half-thousandth ties, which no result here depends on.) -/
def round3 (q : ℚ) : ℚ := (round (q * 1000) : ℤ) / 1000

/-- `classify_sentiment`: per-sentence thresholds on the compound score. -/
def classify_sentiment (compound_score : ℚ) : Sentiment :=
  if compound_score ≥ 0.05 then .positive
  else if compound_score ≤ -0.05 then .negative
  else .neutral

/-! Sentence-distribution statistics computed by
`classify_overall_sentiment` (the counting loop over
`sentence_sentiments`). -/

/-- Number of sentences labelled positive. -/
def positive_count (ss : List SentenceSentiment) : ℕ :=
  (ss.filter (fun s => s.sentiment = .positive)).length

/-- Number of sentences labelled negative. -/
def negative_count (ss : List SentenceSentiment) : ℕ :=
  (ss.filter (fun s => s.sentiment = .negative)).length

/-- Sum of confidences of positive sentences (`positive_intensity_sum`). -/
def positive_intensity_sum (ss : List SentenceSentiment) : ℚ :=
  ((ss.filter (fun s => s.sentiment = .positive)).map (fun s => s.confidence)).sum

/-- Sum of confidences of negative sentences (`negative_intensity_sum`). -/
def negative_intensity_sum (ss : List SentenceSentiment) : ℚ :=
  ((ss.filter (fun s => s.sentiment = .negative)).map (fun s => s.confidence)).sum

/-- `sentence_balance`: normalized sentence distribution in [-1, 1]. -/
def sentence_balance (ss : List SentenceSentiment) : ℚ :=
  if 0 < positive_count ss + negative_count ss then
    ((positive_count ss : ℚ) - (negative_count ss : ℚ)) /
      ((positive_count ss : ℚ) + (negative_count ss : ℚ))
  else 0

/-- `avg_negative_intensity`. -/
def avg_negative_intensity (ss : List SentenceSentiment) : ℚ :=
  if 0 < negative_count ss then
    negative_intensity_sum ss / (negative_count ss : ℚ)
  else 0

/-- `avg_positive_intensity`. -/
def avg_positive_intensity (ss : List SentenceSentiment) : ℚ :=
  if 0 < positive_count ss then
    positive_intensity_sum ss / (positive_count ss : ℚ)
  else 0

/-- `intensity_adjustment`: strong sentences of one polarity weigh extra. -/
def intensity_adjustment (ss : List SentenceSentiment) : ℚ :=
  if avg_negative_intensity ss > 0.5 ∧ negative_count ss ≥ 2 then
    -0.15 * (avg_negative_intensity ss - 0.5)
  else if avg_positive_intensity ss > 0.5 ∧ positive_count ss ≥ 2 then
    0.15 * (avg_positive_intensity ss - 0.5)
  else 0

/-- `keyword_adjustment`, from the (post-adjustment) keyword counts. -/
def keyword_adjustment (negKw posKw : ℕ) : ℚ :=
  if negKw > posKw then -0.1 * (min negKw 3 : ℕ)
  else if posKw > negKw then 0.1 * (min posKw 3 : ℕ)
  else 0

/-! Text utilities: lowercasing and substring containment, embedding
Python's `str.lower()` and `phrase in text_lower`. -/

/-- Python `str.lower()` (agrees on ASCII, which all phrase lists use). -/
def lowerText (t : Text) : Text := t.map Char.toLower

/-- `listStartsWith p t`: `p` is a prefix of `t`. -/
def listStartsWith : Text → Text → Bool
  | [], _ => true
  | _ :: _, [] => false
  | a :: as, b :: bs => a == b && listStartsWith as bs

/-- `containsPhrase p t`: `p` occurs as a contiguous substring of `t`
(Python's `p in t`). -/
def containsPhrase (p : Text) : Text → Bool
  | [] => listStartsWith p []
  | c :: cs => listStartsWith p (c :: cs) || containsPhrase p cs

/-- Shorthand turning a string literal into a phrase. -/
def phr (s : String) : Text := s.toList

/-- The apostrophe character (several phrases contain it). -/
def apos : Char := Char.ofNat 39

/-- `strong_negative_phrases`, transcribed in source order. -/
def strong_negative_phrases : List Text :=
  [phr "rubbish", phr "utter rubbish", phr "complete rubbish", phr "total rubbish",
   phr "hopeless", phr "completely hopeless", phr "utterly hopeless",
   phr "waste of", phr "waste of time", phr "waste of money", phr "waste of film",
   phr "terrible", phr "horrible", phr "awful", phr "dreadful", phr "atrocious",
   phr "error of judgment", phr "huge error", phr "big mistake", phr "disaster",
   phr "pathetic", phr "abysmal", phr "appalling", phr "disgraceful",
   phr "should hand in", phr "should resign", phr "should quit",
   phr "unacceptable", phr "inexcusable", phr "unforgivable",
   phr "disappointing", phr "disappointed", phr "disappointment",
   phr "bitterly disappointing", phr "hugely disappointing", phr "let down", phr "letdown",
   phr "to my disappointment", phr "what a disappointment",
   phr "sad sight", phr "bad imitation", phr "poor imitation",
   phr "pretty weak", phr "very weak", phr "quite weak", phr "weak storyline", phr "weak plot",
   phr "not very good", phr "not that good", phr "not so good", phr "isnt that good",
   phr "didn" ++ apos :: phr "t laugh", phr "didnt laugh", phr "never laughed",
   phr "boring", phr "tedious", phr "dull", phr "bland", phr "mediocre", phr "forgettable",
   phr "wouldn" ++ apos :: phr "t recommend", phr "would not recommend", phr "cannot recommend",
   phr "don" ++ apos :: phr "t bother", phr "dont bother", phr "skip this", phr "avoid this",
   phr "not worth", phr "waste your time", phr "save your money",
   phr "fails to", phr "failed to", phr "lacks", phr "lacking",
   phr "worse than", phr "inferior to", phr "pales in comparison",
   phr "nothing like", phr "far from", phr "falls short"]

/-- `strong_positive_phrases`, transcribed in source order. -/
def strong_positive_phrases : List Text :=
  [phr "excellent", phr "outstanding", phr "brilliant", phr "fantastic", phr "amazing",
   phr "masterpiece", phr "incredible", phr "superb", phr "phenomenal", phr "extraordinary",
   phr "highly recommend", phr "must see", phr "must watch", phr "loved it", phr "love it",
   phr "best ever", phr "best movie", phr "best film", phr "thoroughly enjoyed",
   phr "blown away", phr "exceeded expectations", phr "pleasantly surprised"]

/-- `hope_disappointment_patterns`, transcribed in source order. -/
def hope_disappointment_patterns : List Text :=
  [phr "hoping", phr "hoped", phr "expected", phr "expecting", phr "wanted",
   phr "wished", phr "thought it would", phr "should have been",
   phr "could have been", phr "was supposed to"]

/-- Raw strong-negative phrase count over the lowercased text. -/
def raw_negative_keyword_count (tl : Text) : ℕ :=
  strong_negative_phrases.countP (fun p => containsPhrase p tl)

/-- Raw strong-positive phrase count over the lowercased text. -/
def raw_positive_keyword_count (tl : Text) : ℕ :=
  strong_positive_phrases.countP (fun p => containsPhrase p tl)

/-- `has_hope_disappointment`: some expectation-framing phrase occurs. -/
def has_hope_disappointment (tl : Text) : Bool :=
  hope_disappointment_patterns.any (fun p => containsPhrase p tl)

/-- The keyword counts actually used for fusion, after the
hope/disappointment reinterpretation: the pair
`(negative_keyword_count, positive_keyword_count)`.
`max 0 (n - 2)` on Python ints is truncated subtraction on `ℕ`. -/
def keywordCounts (tl : Text) : ℕ × ℕ :=
  let negC := raw_negative_keyword_count tl
  let posC := raw_positive_keyword_count tl
  if has_hope_disappointment tl ∧ containsPhrase (phr "disappointment") tl then
    (negC + 1, posC - 2)
  else (negC, posC)

/-- `negative_keyword_count` as used from the adjustment point on. -/
def negative_keyword_count (tl : Text) : ℕ := (keywordCounts tl).1

/-- `positive_keyword_count` as used from the adjustment point on. -/
def positive_keyword_count (tl : Text) : ℕ := (keywordCounts tl).2

/-! The fusion core of `classify_overall_sentiment`. -/

/-- `combined_score`: the weighted blend of all signals, final term the
disagreement bonus. -/
def combined_score (compound polarity : ℚ) (ss : List SentenceSentiment) (tl : Text) : ℚ :=
  compound * 0.30 +
  polarity * 0.15 +
  sentence_balance ss * 0.25 +
  keyword_adjustment (negative_keyword_count tl) (positive_keyword_count tl) +
  intensity_adjustment ss +
  (if (compound > 0 ∧ polarity < 0) ∨ (compound < 0 ∧ polarity > 0) then polarity * 0.10 else 0)

/-- The label branch of `classify_overall_sentiment`: thresholds on the
combined score, then the borderline tie-break cascade. -/
def overall_label (compound polarity : ℚ) (ss : List SentenceSentiment) (tl : Text) : Sentiment :=
  let c := combined_score compound polarity ss tl
  if c ≥ 0.12 then .positive
  else if c ≤ -0.08 then .negative
  else if negative_keyword_count tl > positive_keyword_count tl then .negative
  else if positive_keyword_count tl > negative_keyword_count tl then .positive
  else if negative_count ss > positive_count ss ∧ avg_negative_intensity ss > 0.3 then .negative
  else if positive_count ss > negative_count ss ∧ avg_positive_intensity ss > 0.3 then .positive
  else .neutral

/-- The confidence branch of `classify_overall_sentiment`, before the
final rounding: `abs`, then the additive keyword boost, then the
multiplicative agreement boost. -/
def overall_confidence (compound polarity : ℚ) (ss : List SentenceSentiment) (tl : Text) : ℚ :=
  let c0 := |combined_score compound polarity ss tl|
  let c1 := if negative_keyword_count tl ≥ 2 ∨ positive_keyword_count tl ≥ 2 then
              min (c0 + 0.2) 1
            else c0
  if (compound > 0 ∧ polarity > 0 ∧ sentence_balance ss > 0) ∨
     (compound < 0 ∧ polarity < 0 ∧ sentence_balance ss < 0) then
    min (c1 * 1.2) 1
  else c1

/-- `classify_overall_sentiment`: the returned `(sentiment, confidence)`
pair. The raw `text` argument is lowercased here (`text.lower() if text
else ""`; both arms give `lowerText text` since `lowerText [] = []`). -/
def classify_overall_sentiment (vader_scores : VaderScores) (textblob_scores : TextblobScores)
    (sentence_sentiments : List SentenceSentiment) (text : Text) : Sentiment × ℚ :=
  let tl := lowerText text
  (overall_label vader_scores.compound textblob_scores.polarity sentence_sentiments tl,
   round3 (overall_confidence vader_scores.compound textblob_scores.polarity sentence_sentiments tl))

/-! Preprocessing (`preprocess_text`).  Whitespace is modelled as
space/tab/LF/CR (the whitespace of the texts at issue; Python's `\s` and
`str.split` additionally accept rarer Unicode space characters). -/

/-- Whitespace test used throughout the preprocessing model. -/
def isWs (c : Char) : Bool := c = ' ' || c = '\t' || c = '\n' || c = '\r'

/-- Does the regex alternation `http\S+|www\S+|https\S+` match at the head
of this whitespace-free run?  (`\S+` needs at least one character after
the literal; the `https` branch is subsumed by the `http` one.) -/
def urlMatchHere (run : Text) : Bool :=
  (listStartsWith (phr "http") run && decide (run.length ≥ 5)) ||
  (listStartsWith (phr "www") run && decide (run.length ≥ 4))

/-- Effect of `re.sub(r'http\S+|www\S+|https\S+', '', ·)` on one maximal
whitespace-free run: the greedy `\S+` extends to the end of the run, so
everything from the first match position on is deleted. -/
def stripUrlRun : Text → Text
  | [] => []
  | c :: cs => if urlMatchHere (c :: cs) then [] else c :: stripUrlRun cs

/-- Effect of `re.sub(r'\S+@\S+', '', ·)` on one maximal whitespace-free
run: the run is deleted entirely exactly when it has an `@` that is
neither its first nor its last character (both `\S+` are greedy, so a
matching run is consumed whole from its leftmost character). -/
def stripEmailRun (run : Text) : Text :=
  if ((run.drop 1).dropLast).contains '@' then [] else run

/-- Apply a run-rewriting function to every maximal whitespace-free run,
keeping the whitespace characters in place.  `acc` holds the current run
reversed. -/
def mapRunsAux (f : Text → Text) (acc : Text) : Text → Text
  | [] => f acc.reverse
  | c :: cs =>
    if isWs c then f acc.reverse ++ c :: mapRunsAux f [] cs
    else mapRunsAux f (c :: acc) cs

/-- Run-wise rewriting of a text (see `mapRunsAux`). -/
def mapRuns (f : Text → Text) (t : Text) : Text := mapRunsAux f [] t

/-- The character class kept by `re.sub(r'[^a-zA-Z\s!?.]', '', ·)`. -/
def keepChar (c : Char) : Bool :=
  ('a' ≤ c && c ≤ 'z') || ('A' ≤ c && c ≤ 'Z') || isWs c || c = '!' || c = '?' || c = '.'

/-- Python `str.split()`: maximal whitespace-free pieces, empties dropped.
`acc` holds the current piece reversed. -/
def splitWsAux (acc : Text) : Text → List Text
  | [] => if acc.isEmpty then [] else [acc.reverse]
  | c :: cs =>
    if isWs c then
      if acc.isEmpty then splitWsAux [] cs else acc.reverse :: splitWsAux [] cs
    else splitWsAux (c :: acc) cs

/-- Python `str.split()` on whitespace. -/
def splitWs (t : Text) : List Text := splitWsAux [] t

/-- Python `' '.join(...)`. -/
def joinSpace : List Text → Text
  | [] => []
  | [p] => p
  | p :: ps => p ++ ' ' :: joinSpace ps

/-- Python `str.strip()`. -/
def stripText (t : Text) : Text := ((t.dropWhile isWs).reverse.dropWhile isWs).reverse

/-- The external NLP resources (NLTK VADER, TextBlob, NLTK tokenizers,
stopword list, WordNet lemmatizer).  They live outside this repository;
every theorem that needs one of their documented properties takes it as a
hypothesis on the backend. -/
structure NlpBackend where
  vader : Text → VaderScores
  textblob : Text → TextblobScores
  sent_tokenize : Text → List Text
  word_tokenize : Text → List Text
  lemmatize : Text → Text
  stop_words : Text → Bool

/-- `analyze_sentiment_vader`: backend scores, each rounded to 3 places. -/
def analyze_sentiment_vader (B : NlpBackend) (text : Text) : VaderScores :=
  let s := B.vader text
  ⟨round3 s.positive, round3 s.negative, round3 s.neutral, round3 s.compound⟩

/-- `analyze_sentiment_textblob`: backend scores rounded to 3 places. -/
def analyze_sentiment_textblob (B : NlpBackend) (text : Text) : TextblobScores :=
  let s := B.textblob text
  ⟨round3 s.polarity, round3 s.subjectivity⟩

/-- `preprocess_text`: lowercase, strip URLs, strip emails, strip the
disallowed characters, collapse whitespace, tokenize, drop stopwords and
short tokens, lemmatize.  Returns `(processed_tokens, text_cleaned)`. -/
def preprocess_text (B : NlpBackend) (text : Text) : List Text × Text :=
  let text_lower := lowerText text
  let noUrls := mapRuns stripUrlRun text_lower
  let noEmails := mapRuns stripEmailRun noUrls
  let filtered := noEmails.filter keepChar
  let text_cleaned := joinSpace (splitWs filtered)
  let tokens := B.word_tokenize text_cleaned
  let processed_tokens :=
    (tokens.filter (fun tok => !(B.stop_words (lowerText tok)) && decide (tok.length > 2))).map
      B.lemmatize
  (processed_tokens, text_cleaned)

/-- The record assembled by `get_detailed_analysis`. -/
structure AnalysisResult where
  overall_sentiment : Sentiment
  confidence : ℚ
  vader_scores : VaderScores
  textblob_scores : TextblobScores
  processed_tokens : List Text
  token_count : ℕ
  sentence_count : ℕ
  sentence_analysis : List SentenceSentiment
  cleaned_text : Text

/-- `get_detailed_analysis`: the end-to-end pipeline for one text. -/
def get_detailed_analysis (B : NlpBackend) (text : Text) : AnalysisResult :=
  let pre := preprocess_text B text
  let vader_scores := analyze_sentiment_vader B text
  let textblob_scores := analyze_sentiment_textblob B text
  let sentences := B.sent_tokenize text
  let sentence_sentiments := sentences.map (fun s =>
    let sent_scores := analyze_sentiment_vader B s
    { sentence := stripText s
      sentiment := classify_sentiment sent_scores.compound
      confidence := |sent_scores.compound| })
  let res := classify_overall_sentiment vader_scores textblob_scores sentence_sentiments text
  { overall_sentiment := res.1
    confidence := res.2
    vader_scores := vader_scores
    textblob_scores := textblob_scores
    processed_tokens := pre.1
    token_count := pre.1.length
    sentence_count := sentences.length
    sentence_analysis := sentence_sentiments
    cleaned_text := pre.2 }

/-! Specification-side definitions.  Each is written following the words
of the specification, to be compared with the source-derived definitions
above. -/

/-- Spec wording of the keyword adjustment. -/
def specKeywordAdjustment (negC posC : ℕ) : ℚ :=
  if negC > posC then -0.1 * (min negC 3 : ℕ)
  else if posC > negC then 0.1 * (min posC 3 : ℕ)
  else 0

/-- Spec wording of the disagreement bonus: `polarity * 0.10` exactly when
compound and polarity strictly disagree in sign, else 0. -/
def specDisagreementBonus (compound polarity : ℚ) : ℚ :=
  if (compound > 0 ∧ polarity < 0) ∨ (compound < 0 ∧ polarity > 0) then polarity * 0.10
  else 0

/-- Spec wording of the fused score. -/
def specCombinedScore (compound polarity balance keywordAdj intensityAdj : ℚ) : ℚ :=
  compound * 0.30 + polarity * 0.15 + balance * 0.25 + keywordAdj + intensityAdj +
    specDisagreementBonus compound polarity

/-- Spec wording of the label decision: primary thresholds, then the
tie-break cascade in order. -/
def specDecision (combined : ℚ) (negKw posKw : ℕ) (negSent posSent : ℕ)
    (avgNeg avgPos : ℚ) : Sentiment :=
  if combined ≥ 0.12 then .positive
  else if combined ≤ -0.08 then .negative
  else if negKw > posKw then .negative
  else if posKw > negKw then .positive
  else if negSent > posSent ∧ avgNeg > 0.3 then .negative
  else if posSent > negSent ∧ avgPos > 0.3 then .positive
  else .neutral

/-- Spec wording of the additive confidence boost (first stage). -/
def specAdditiveBoost (conf : ℚ) (negKw posKw : ℕ) : ℚ :=
  if negKw ≥ 2 ∨ posKw ≥ 2 then min (conf + 0.2) 1 else conf

/-- Spec wording of the multiplicative confidence boost (second stage). -/
def specMultiplicativeBoost (conf compound polarity balance : ℚ) : ℚ :=
  if (compound > 0 ∧ polarity > 0 ∧ balance > 0) ∨
     (compound < 0 ∧ polarity < 0 ∧ balance < 0) then min (conf * 1.2) 1
  else conf

/-! Shared helper lemmas. -/

/-- The keyword adjustment is bounded by 0.3 in absolute value. -/
lemma keyword_adjustment_bounds (negC posC : ℕ) :
    -0.3 ≤ keyword_adjustment negC posC ∧ keyword_adjustment negC posC ≤ 0.3 := by
  have h1 : ((min negC 3 : ℕ) : ℚ) ≤ 3 := by exact_mod_cast Nat.min_le_right negC 3
  have h2 : (0 : ℚ) ≤ ((min negC 3 : ℕ) : ℚ) := by positivity
  have h3 : ((min posC 3 : ℕ) : ℚ) ≤ 3 := by exact_mod_cast Nat.min_le_right posC 3
  have h4 : (0 : ℚ) ≤ ((min posC 3 : ℕ) : ℚ) := by positivity
  unfold keyword_adjustment
  split_ifs <;> constructor <;> nlinarith

/-- With both keyword counts at most 1 the adjustment is at most 0.1 in
absolute value. -/
lemma keyword_adjustment_small (negC posC : ℕ) (hn : negC ≤ 1) (hp : posC ≤ 1) :
    -0.1 ≤ keyword_adjustment negC posC ∧ keyword_adjustment negC posC ≤ 0.1 := by
  have h1 : ((min negC 3 : ℕ) : ℚ) ≤ 1 := by
    exact_mod_cast le_trans (Nat.min_le_left negC 3) hn
  have h2 : (0 : ℚ) ≤ ((min negC 3 : ℕ) : ℚ) := by positivity
  have h3 : ((min posC 3 : ℕ) : ℚ) ≤ 1 := by
    exact_mod_cast le_trans (Nat.min_le_left posC 3) hp
  have h4 : (0 : ℚ) ≤ ((min posC 3 : ℕ) : ℚ) := by positivity
  unfold keyword_adjustment
  split_ifs <;> constructor <;> nlinarith

/-- Confidence sums over a sentence list are at most the list length when
every confidence is at most 1. -/
lemma conf_sum_le_length (l : List SentenceSentiment) (h : ∀ s ∈ l, s.confidence ≤ 1) :
    (l.map (fun s => s.confidence)).sum ≤ (l.length : ℚ) := by
  induction l with
  | nil => simp
  | cons a t ih =>
    have ha := h a (by simp)
    have ht := ih (fun s hs => h s (List.mem_cons_of_mem a hs))
    simp only [List.map_cons, List.sum_cons, List.length_cons]
    push_cast
    linarith

/-- Confidence sums are nonnegative when every confidence is. -/
lemma conf_sum_nonneg (l : List SentenceSentiment) (h : ∀ s ∈ l, 0 ≤ s.confidence) :
    0 ≤ (l.map (fun s => s.confidence)).sum := by
  induction l with
  | nil => simp
  | cons a t ih =>
    have ha := h a (by simp)
    have ht := ih (fun s hs => h s (List.mem_cons_of_mem a hs))
    simp only [List.map_cons, List.sum_cons]
    linarith

/-- The average negative intensity lies in `[0, 1]` when every sentence
confidence does. -/
lemma avg_negative_intensity_mem_unit (ss : List SentenceSentiment)
    (h : ∀ s ∈ ss, 0 ≤ s.confidence ∧ s.confidence ≤ 1) :
    0 ≤ avg_negative_intensity ss ∧ avg_negative_intensity ss ≤ 1 := by
  unfold avg_negative_intensity negative_intensity_sum negative_count
  set l := ss.filter (fun s => s.sentiment = .negative) with hl
  have hmem : ∀ s ∈ l, 0 ≤ s.confidence ∧ s.confidence ≤ 1 := by
    intro s hs
    exact h s (List.mem_of_mem_filter hs)
  split_ifs with hpos
  · have hlen : (0 : ℚ) < (l.length : ℚ) := by exact_mod_cast hpos
    constructor
    · exact div_nonneg (conf_sum_nonneg l (fun s hs => (hmem s hs).1)) (le_of_lt hlen)
    · rw [div_le_one hlen]
      exact conf_sum_le_length l (fun s hs => (hmem s hs).2)
  · norm_num

/-- The average positive intensity lies in `[0, 1]` when every sentence
confidence does. -/
lemma avg_positive_intensity_mem_unit (ss : List SentenceSentiment)
    (h : ∀ s ∈ ss, 0 ≤ s.confidence ∧ s.confidence ≤ 1) :
    0 ≤ avg_positive_intensity ss ∧ avg_positive_intensity ss ≤ 1 := by
  unfold avg_positive_intensity positive_intensity_sum positive_count
  set l := ss.filter (fun s => s.sentiment = .positive) with hl
  have hmem : ∀ s ∈ l, 0 ≤ s.confidence ∧ s.confidence ≤ 1 := by
    intro s hs
    exact h s (List.mem_of_mem_filter hs)
  split_ifs with hpos
  · have hlen : (0 : ℚ) < (l.length : ℚ) := by exact_mod_cast hpos
    constructor
    · exact div_nonneg (conf_sum_nonneg l (fun s hs => (hmem s hs).1)) (le_of_lt hlen)
    · rw [div_le_one hlen]
      exact conf_sum_le_length l (fun s hs => (hmem s hs).2)
  · norm_num

/-- The intensity adjustment is bounded by 0.075 in absolute value when
every sentence confidence lies in `[0, 1]`. -/
lemma intensity_adjustment_bounds (ss : List SentenceSentiment)
    (h : ∀ s ∈ ss, 0 ≤ s.confidence ∧ s.confidence ≤ 1) :
    -0.075 ≤ intensity_adjustment ss ∧ intensity_adjustment ss ≤ 0.075 := by
  obtain ⟨hn0, hn1⟩ := avg_negative_intensity_mem_unit ss h
  obtain ⟨hp0, hp1⟩ := avg_positive_intensity_mem_unit ss h
  unfold intensity_adjustment
  split_ifs with h1 h2
  · constructor <;> nlinarith [h1.1]
  · constructor <;> nlinarith [h2.1]
  · norm_num

/-- The sentence balance lies in `[-1, 1]`. -/
lemma sentence_balance_bounds (ss : List SentenceSentiment) :
    -1 ≤ sentence_balance ss ∧ sentence_balance ss ≤ 1 := by
  unfold sentence_balance
  split_ifs with h
  · have hp : (0 : ℚ) ≤ (positive_count ss : ℚ) := by positivity
    have hn : (0 : ℚ) ≤ (negative_count ss : ℚ) := by positivity
    have hpn : (0 : ℚ) < (positive_count ss : ℚ) + (negative_count ss : ℚ) := by
      exact_mod_cast h
    constructor
    · rw [le_div_iff₀ hpn]
      linarith
    · rw [div_le_one hpn]
      linarith
  · norm_num

/-! `round3` facts. -/

lemma round3_zero : round3 0 = 0 := by
  simp [round3]

lemma round3_nonneg (q : ℚ) (h : 0 ≤ q) : 0 ≤ round3 q := by
  unfold round3
  have hz : (0 : ℤ) ≤ round (q * 1000) := by
    rw [round_eq]
    refine Int.floor_nonneg.mpr ?_
    linarith
  have : (0 : ℚ) ≤ (round (q * 1000) : ℤ) := by exact_mod_cast hz
  positivity

lemma round3_le_one (q : ℚ) (h : q ≤ 1) : round3 q ≤ 1 := by
  unfold round3
  have hz : round (q * 1000) < 1001 := by
    rw [round_eq, Int.floor_lt]
    push_cast
    linarith
  have hz' : round (q * 1000) ≤ 1000 := by omega
  have hq : ((round (q * 1000) : ℤ) : ℚ) ≤ 1000 := by exact_mod_cast hz'
  rw [div_le_one (by norm_num)]
  exact hq

lemma round3_ge_neg_one (q : ℚ) (h : -1 ≤ q) : -1 ≤ round3 q := by
  unfold round3
  have hz : (-1000 : ℤ) ≤ round (q * 1000) := by
    rw [round_eq]
    refine Int.le_floor.mpr ?_
    push_cast
    linarith
  have hq : (-1000 : ℚ) ≤ ((round (q * 1000) : ℤ) : ℚ) := by exact_mod_cast hz
  rw [le_div_iff₀ (by norm_num : (0:ℚ) < 1000)]
  linarith

lemma round3_abs_le_one (q : ℚ) (h : |q| ≤ 1) : |round3 q| ≤ 1 := by
  rw [abs_le] at h ⊢
  exact ⟨round3_ge_neg_one q h.1, round3_le_one q h.2⟩

lemma round3_mem_unit (q : ℚ) (h0 : 0 ≤ q) (h1 : q ≤ 1) :
    0 ≤ round3 q ∧ round3 q ≤ 1 :=
  ⟨round3_nonneg q h0, round3_le_one q h1⟩

/-! Evaluation lemmas for the degenerate (empty) inputs: `ℚ` arithmetic
does not reduce by `decide`, so these are proved by rewriting. -/

lemma sentence_balance_nil : sentence_balance [] = 0 := by
  simp [sentence_balance, positive_count, negative_count]

lemma intensity_adjustment_nil : intensity_adjustment [] = 0 := by
  norm_num [intensity_adjustment, avg_negative_intensity, avg_positive_intensity,
    negative_count, positive_count]

lemma negative_keyword_count_nil : negative_keyword_count [] = 0 := by decide

lemma positive_keyword_count_nil : positive_keyword_count [] = 0 := by decide

lemma combined_score_zero_nil : combined_score 0 0 [] [] = 0 := by
  unfold combined_score
  rw [sentence_balance_nil, intensity_adjustment_nil,
    negative_keyword_count_nil, positive_keyword_count_nil]
  norm_num [keyword_adjustment]

lemma overall_label_zero_nil : overall_label 0 0 [] [] = .neutral := by
  have h : overall_label 0 0 [] [] =
      specDecision (combined_score 0 0 [] []) (negative_keyword_count [])
        (positive_keyword_count []) (negative_count []) (positive_count [])
        (avg_negative_intensity []) (avg_positive_intensity []) := rfl
  rw [h, combined_score_zero_nil, negative_keyword_count_nil, positive_keyword_count_nil]
  norm_num [specDecision, negative_count, positive_count]

lemma overall_confidence_zero_nil : overall_confidence 0 0 [] [] = 0 := by
  have h : overall_confidence 0 0 [] [] =
      specMultiplicativeBoost
        (specAdditiveBoost |combined_score 0 0 [] []| (negative_keyword_count [])
          (positive_keyword_count []))
        0 0 (sentence_balance []) := rfl
  rw [h, combined_score_zero_nil, negative_keyword_count_nil, positive_keyword_count_nil,
    sentence_balance_nil]
  norm_num [specAdditiveBoost, specMultiplicativeBoost]

/-- The disagreement bonus term of `combined_score` is bounded by 0.1 in
absolute value when the polarity is. -/
lemma disagreement_bonus_bounds (compound polarity : ℚ) (hp : |polarity| ≤ 1) :
    -0.1 ≤ (if (compound > 0 ∧ polarity < 0) ∨ (compound < 0 ∧ polarity > 0)
      then polarity * 0.10 else (0 : ℚ)) ∧
    (if (compound > 0 ∧ polarity < 0) ∨ (compound < 0 ∧ polarity > 0)
      then polarity * 0.10 else (0 : ℚ)) ≤ 0.1 := by
  rw [abs_le] at hp
  split_ifs <;> constructor <;> linarith

/-- The confidence produced by the fusion step (before the final
rounding) lies in `[0, 1]` whenever the scorer outputs lie in their
documented ranges.  The point of interest is the branch in which no boost
fires: there the two keyword counts are at most 1 and the three main
signals do not all strictly agree in sign, which caps `|combined_score|`
strictly below 1. -/
lemma overall_confidence_mem_unit (compound polarity : ℚ) (ss : List SentenceSentiment)
    (tl : Text) (hc : |compound| ≤ 1) (hp : |polarity| ≤ 1)
    (hs : ∀ s ∈ ss, 0 ≤ s.confidence ∧ s.confidence ≤ 1) :
    0 ≤ overall_confidence compound polarity ss tl ∧
    overall_confidence compound polarity ss tl ≤ 1 := by
  obtain ⟨hb1, hb2⟩ := sentence_balance_bounds ss
  obtain ⟨hi1, hi2⟩ := intensity_adjustment_bounds ss hs
  obtain ⟨hd1, hd2⟩ := disagreement_bonus_bounds compound polarity hp
  have h0 : (0 : ℚ) ≤ |combined_score compound polarity ss tl| := abs_nonneg _
  rw [abs_le] at hc hp
  have hrw : overall_confidence compound polarity ss tl =
      specMultiplicativeBoost
        (specAdditiveBoost |combined_score compound polarity ss tl|
          (negative_keyword_count tl) (positive_keyword_count tl))
        compound polarity (sentence_balance ss) := rfl
  rw [hrw]
  unfold specMultiplicativeBoost specAdditiveBoost
  split_ifs with hmult hkw hkw
  · have hmin0 : (0 : ℚ) ≤ min (|combined_score compound polarity ss tl| + 0.2) 1 :=
      le_min (by linarith) (by norm_num)
    exact ⟨le_min (by nlinarith) (by norm_num), min_le_right _ 1⟩
  · exact ⟨le_min (by nlinarith) (by norm_num), min_le_right _ 1⟩
  · exact ⟨le_min (by linarith) (by norm_num), min_le_right _ 1⟩
  · -- no boost fires: both keyword counts are at most 1 and the three
    -- signals do not all agree strictly in sign
    rw [not_or] at hkw
    obtain ⟨hk1, hk2⟩ := keyword_adjustment_small (negative_keyword_count tl)
      (positive_keyword_count tl) (by omega) (by omega)
    have hnm := not_or.mp hmult
    have hA : compound ≤ 0 ∨ polarity ≤ 0 ∨ sentence_balance ss ≤ 0 := by
      by_contra hcon
      push_neg at hcon
      exact hnm.1 ⟨hcon.1, hcon.2.1, hcon.2.2⟩
    have hB : 0 ≤ compound ∨ 0 ≤ polarity ∨ 0 ≤ sentence_balance ss := by
      by_contra hcon
      push_neg at hcon
      exact hnm.2 ⟨hcon.1, hcon.2.1, hcon.2.2⟩
    have hub : combined_score compound polarity ss tl ≤ 1 := by
      unfold combined_score
      rcases hA with h | h | h <;> linarith
    have hlb : -1 ≤ combined_score compound polarity ss tl := by
      unfold combined_score
      rcases hB with h | h | h <;> linarith
    exact ⟨h0, abs_le.mpr ⟨hlb, hub⟩⟩

/-! Concrete texts named in the claims. -/

/-- The expectation-framing example text. -/
def t_hope : Text := phr "I was hoping for an excellent film but what a disappointment"

/-- The keyword-override example text. -/
def t_override : Text :=
  phr "The acting was fine but honestly this was utter rubbish, a complete waste of time, and frankly pathetic."

/-! Claim theorems. -/

/-- C2: for every combination of input signals, the returned label is the
threshold test `combined_score ≥ 0.12 → positive`, `≤ -0.08 → negative`,
and otherwise the tie-break cascade in order: keyword counts, then
sentence counts weighted by average intensity > 0.3, else neutral. -/
theorem claim_C2 (vader_scores : VaderScores) (textblob_scores : TextblobScores)
    (ss : List SentenceSentiment) (text : Text) :
    (classify_overall_sentiment vader_scores textblob_scores ss text).1 =
      specDecision
        (combined_score vader_scores.compound textblob_scores.polarity ss (lowerText text))
        (negative_keyword_count (lowerText text)) (positive_keyword_count (lowerText text))
        (negative_count ss) (positive_count ss)
        (avg_negative_intensity ss) (avg_positive_intensity ss) := rfl

/-- C3: the fused score is exactly
`compound*0.30 + polarity*0.15 + sentence_balance*0.25 +
keyword_adjustment + intensity_adjustment + disagreement_bonus`, the
bonus being `polarity*0.10` exactly when compound and polarity strictly
disagree in sign and 0 otherwise. -/
theorem claim_C3 (compound polarity : ℚ) (ss : List SentenceSentiment) (tl : Text) :
    combined_score compound polarity ss tl =
      specCombinedScore compound polarity (sentence_balance ss)
        (keyword_adjustment (negative_keyword_count tl) (positive_keyword_count tl))
        (intensity_adjustment ss) := rfl

/-- C5: the keyword adjustment is `-0.1 * min(neg, 3)` when the negative
count is strictly larger, `+0.1 * min(pos, 3)` when the positive count is
strictly larger, 0 on ties; it stays within `[-0.3, 0.3]` and attains
both endpoints. -/
theorem claim_C5 (negC posC : ℕ) :
    keyword_adjustment negC posC = specKeywordAdjustment negC posC ∧
    -0.3 ≤ keyword_adjustment negC posC ∧ keyword_adjustment negC posC ≤ 0.3 ∧
    keyword_adjustment 3 0 = -0.3 ∧ keyword_adjustment 0 3 = 0.3 := by
  obtain ⟨h1, h2⟩ := keyword_adjustment_bounds negC posC
  refine ⟨rfl, h1, h2, ?_, ?_⟩ <;> norm_num [keyword_adjustment]

/-- C6: the returned confidence is `|combined_score|` put through the
additive keyword boost first and the multiplicative sign-agreement boost
second, each clamped to 1, then rounded. -/
theorem claim_C6 (vader_scores : VaderScores) (textblob_scores : TextblobScores)
    (ss : List SentenceSentiment) (text : Text) :
    (classify_overall_sentiment vader_scores textblob_scores ss text).2 =
      round3
        (specMultiplicativeBoost
          (specAdditiveBoost
            |combined_score vader_scores.compound textblob_scores.polarity ss (lowerText text)|
            (negative_keyword_count (lowerText text)) (positive_keyword_count (lowerText text)))
          vader_scores.compound textblob_scores.polarity (sentence_balance ss)) := rfl

/-- C10: a zero value of compound, polarity or sentence balance blocks
the multiplicative boost — the confidence (before rounding) is then
exactly the additively boosted `|combined_score|`. -/
theorem claim_C10 (compound polarity : ℚ) (ss : List SentenceSentiment) (tl : Text)
    (h : compound = 0 ∨ polarity = 0 ∨ sentence_balance ss = 0) :
    overall_confidence compound polarity ss tl =
      specAdditiveBoost |combined_score compound polarity ss tl|
        (negative_keyword_count tl) (positive_keyword_count tl) := by
  have hm : ¬((compound > 0 ∧ polarity > 0 ∧ sentence_balance ss > 0) ∨
      (compound < 0 ∧ polarity < 0 ∧ sentence_balance ss < 0)) := by
    rcases h with h | h | h <;> rintro (⟨a, b, c⟩ | ⟨a, b, c⟩) <;> linarith
  unfold overall_confidence specAdditiveBoost
  rw [if_neg hm]

/-- Witness for C10 at a concrete zero compound. -/
theorem claim_C10_witness :
    overall_confidence 0 1 [] [] =
      specAdditiveBoost |combined_score 0 1 [] []|
        (negative_keyword_count []) (positive_keyword_count []) :=
  claim_C10 0 1 [] [] (Or.inl rfl)

/-- C4: whenever an expectation-framing phrase and the literal phrase
"disappointment" both occur in the lowercased text, the fused positive
keyword count is the raw count minus 2 floored at 0 and the negative
count is the raw count plus 1; on the example text this wipes out the
positive credit of "excellent" (raw positive count 1, fused count 0). -/
theorem claim_C4 :
    (∀ t : Text, has_hope_disappointment (lowerText t) = true →
      containsPhrase (phr "disappointment") (lowerText t) = true →
      negative_keyword_count (lowerText t) = raw_negative_keyword_count (lowerText t) + 1 ∧
      positive_keyword_count (lowerText t) = raw_positive_keyword_count (lowerText t) - 2) ∧
    raw_positive_keyword_count (lowerText t_hope) = 1 ∧
    positive_keyword_count (lowerText t_hope) = 0 := by
  refine ⟨?_, by decide, by decide⟩
  intro t h1 h2
  unfold negative_keyword_count positive_keyword_count keywordCounts
  simp [h1, h2]

/-- Witness for C4 at the example text. -/
theorem claim_C4_witness :
    has_hope_disappointment (lowerText t_hope) = true ∧
    containsPhrase (phr "disappointment") (lowerText t_hope) = true ∧
    negative_keyword_count (lowerText t_hope) = raw_negative_keyword_count (lowerText t_hope) + 1 ∧
    positive_keyword_count (lowerText t_hope) = raw_positive_keyword_count (lowerText t_hope) - 2 :=
  ⟨by decide, by decide, claim_C4.1 t_hope (by decide) (by decide)⟩

/-- C7: a text whose fused keyword counts are at least 3 negative and 0
positive classifies negative for every at-most-mildly-positive compound
(`≤ 1`), non-positive polarity and positive-free sentence list; the
example text has fused counts (5, 0). -/
theorem claim_C7 :
    (∀ (vader_scores : VaderScores) (textblob_scores : TextblobScores)
       (ss : List SentenceSentiment) (t : Text),
      negative_keyword_count (lowerText t) ≥ 3 →
      positive_keyword_count (lowerText t) = 0 →
      textblob_scores.polarity ≤ 0 →
      vader_scores.compound ≤ 1 →
      (∀ s ∈ ss, s.sentiment ≠ .positive) →
      (classify_overall_sentiment vader_scores textblob_scores ss t).1 = .negative) ∧
    negative_keyword_count (lowerText t_override) = 5 ∧
    positive_keyword_count (lowerText t_override) = 0 := by
  refine ⟨?_, by decide, by decide⟩
  intro v tb ss t hneg hpos hp hc hss
  set tl := lowerText t with htl
  -- the positive sentence count is zero
  have hposcnt : positive_count ss = 0 := by
    unfold positive_count
    rw [List.length_eq_zero, List.filter_eq_nil_iff]
    intro s hs
    simpa using hss s hs
  -- hence the sentence balance is non-positive
  have hbal : sentence_balance ss ≤ 0 := by
    unfold sentence_balance
    split_ifs with h
    · rw [hposcnt] at h ⊢
      rw [div_nonpos_iff]
      refine Or.inr ⟨?_, ?_⟩ <;> push_cast <;> linarith
    · norm_num
  -- the intensity adjustment cannot be positive
  have hia : intensity_adjustment ss ≤ 0 := by
    unfold intensity_adjustment
    split_ifs with h1 h2
    · nlinarith [h1.1]
    · exact absurd h2.2 (by omega)
    · norm_num
  -- the keyword adjustment is pinned at its most negative value
  have hmin : min (negative_keyword_count tl) 3 = 3 := by omega
  have hkw : keyword_adjustment (negative_keyword_count tl) (positive_keyword_count tl)
      = -0.3 := by
    unfold keyword_adjustment
    rw [hpos, if_pos (by omega : negative_keyword_count tl > 0), hmin]
    norm_num
  -- the disagreement bonus cannot be positive
  have hdb : (if (v.compound > 0 ∧ tb.polarity < 0) ∨ (v.compound < 0 ∧ tb.polarity > 0)
      then tb.polarity * 0.10 else (0 : ℚ)) ≤ 0 := by
    split_ifs with h
    · rcases h with ⟨-, h⟩ | ⟨-, h⟩ <;> nlinarith
    · norm_num
  -- so the combined score is non-positive and far below 0.12
  have hcomb : combined_score v.compound tb.polarity ss tl ≤ 0 := by
    unfold combined_score
    rw [hkw]
    nlinarith [hbal, hia, hdb, hc, hp]
  -- decide the label through the cascade
  have hdec : (classify_overall_sentiment v tb ss t).1 =
      specDecision (combined_score v.compound tb.polarity ss tl)
        (negative_keyword_count tl) (positive_keyword_count tl)
        (negative_count ss) (positive_count ss)
        (avg_negative_intensity ss) (avg_positive_intensity ss) := rfl
  rw [hdec]
  unfold specDecision
  split_ifs with h1 h2 h3 h4 h5 h6
  · exact absurd h1 (by linarith)
  · rfl
  · rfl
  · exact absurd h4 (by omega)
  · rfl
  · exact absurd h6.1 (by omega)
  · exact absurd h3 (by omega)

/-- Witness for C7: the example text with a mildly positive compound
score (0.3), zero polarity and no scored sentences. -/
theorem claim_C7_witness :
    negative_keyword_count (lowerText t_override) ≥ 3 ∧
    positive_keyword_count (lowerText t_override) = 0 ∧
    (classify_overall_sentiment ⟨0, 0, 0, 0.3⟩ ⟨0, 0⟩ [] t_override).1 = .negative :=
  ⟨by decide, by decide,
   claim_C7.1 ⟨0, 0, 0, 0.3⟩ ⟨0, 0⟩ [] t_override (by decide) (by decide)
     (by norm_num) (by norm_num) (by simp)⟩

/-- C8: on the empty string the (total, hence exception-free) pipeline
returns the degenerate result: neutral label, confidence 0, no sentences,
no tokens.  The external scorers and tokenizers are only assumed to give
their actual degenerate outputs on the empty string. -/
theorem claim_C8 (B : NlpBackend)
    (hv : B.vader [] = ⟨0, 0, 0, 0⟩) (ht : B.textblob [] = ⟨0, 0⟩)
    (hsent : B.sent_tokenize [] = []) (hword : B.word_tokenize [] = []) :
    (get_detailed_analysis B []).overall_sentiment = .neutral ∧
    (get_detailed_analysis B []).confidence = 0 ∧
    (get_detailed_analysis B []).sentence_count = 0 ∧
    (get_detailed_analysis B []).token_count = 0 := by
  have hpre : preprocess_text B [] =
      (((B.word_tokenize []).filter
          (fun tok => !(B.stop_words (lowerText tok)) && decide (tok.length > 2))).map
        B.lemmatize, []) := rfl
  rw [hword] at hpre
  simp only [List.filter_nil, List.map_nil] at hpre
  have hres : get_detailed_analysis B [] =
      { overall_sentiment :=
          (classify_overall_sentiment (analyze_sentiment_vader B [])
            (analyze_sentiment_textblob B [])
            ((B.sent_tokenize []).map (fun s =>
              let sent_scores := analyze_sentiment_vader B s
              { sentence := stripText s
                sentiment := classify_sentiment sent_scores.compound
                confidence := |sent_scores.compound| })) []).1
        confidence :=
          (classify_overall_sentiment (analyze_sentiment_vader B [])
            (analyze_sentiment_textblob B [])
            ((B.sent_tokenize []).map (fun s =>
              let sent_scores := analyze_sentiment_vader B s
              { sentence := stripText s
                sentiment := classify_sentiment sent_scores.compound
                confidence := |sent_scores.compound| })) []).2
        vader_scores := analyze_sentiment_vader B []
        textblob_scores := analyze_sentiment_textblob B []
        processed_tokens := (preprocess_text B []).1
        token_count := (preprocess_text B []).1.length
        sentence_count := (B.sent_tokenize []).length
        sentence_analysis :=
          (B.sent_tokenize []).map (fun s =>
            let sent_scores := analyze_sentiment_vader B s
            { sentence := stripText s
              sentiment := classify_sentiment sent_scores.compound
              confidence := |sent_scores.compound| })
        cleaned_text := (preprocess_text B []).2 } := rfl
  have hvA : analyze_sentiment_vader B [] = ⟨0, 0, 0, 0⟩ := by
    unfold analyze_sentiment_vader
    rw [hv]
    simp [round3_zero]
  have htA : analyze_sentiment_textblob B [] = ⟨0, 0⟩ := by
    unfold analyze_sentiment_textblob
    rw [ht]
    simp [round3_zero]
  rw [hres, hsent, hvA, htA, hpre]
  simp only [List.map_nil]
  refine ⟨overall_label_zero_nil, ?_, rfl, rfl⟩
  show round3 (overall_confidence 0 0 [] []) = 0
  rw [overall_confidence_zero_nil, round3_zero]

/-- A concrete degenerate backend, used to instantiate theorems whose
hypotheses only constrain the backend. -/
def zeroBackend : NlpBackend where
  vader := fun _ => ⟨0, 0, 0, 0⟩
  textblob := fun _ => ⟨0, 0⟩
  sent_tokenize := fun _ => []
  word_tokenize := fun _ => []
  lemmatize := fun t => t
  stop_words := fun _ => false

/-- Witness for C8 at the degenerate backend. -/
theorem claim_C8_witness :
    (get_detailed_analysis zeroBackend []).overall_sentiment = .neutral ∧
    (get_detailed_analysis zeroBackend []).confidence = 0 ∧
    (get_detailed_analysis zeroBackend []).sentence_count = 0 ∧
    (get_detailed_analysis zeroBackend []).token_count = 0 :=
  claim_C8 zeroBackend rfl rfl rfl rfl

/-! Character-level facts about the cleaned text, for C9. -/

/-- The character classes the cleaned text may contain, following the
spec wording: letters, whitespace and `! ? .`. -/
def cleanChar (c : Char) : Prop :=
  ('a' ≤ c ∧ c ≤ 'z') ∨ ('A' ≤ c ∧ c ≤ 'Z') ∨ isWs c = true ∨ c = '!' ∨ c = '?' ∨ c = '.'

lemma keepChar_cleanChar (c : Char) (h : keepChar c = true) : cleanChar c := by
  unfold keepChar at h
  unfold cleanChar
  simp only [Bool.or_eq_true, Bool.and_eq_true, decide_eq_true_eq] at h
  tauto

lemma cleanChar_space : cleanChar ' ' := by
  refine Or.inr (Or.inr (Or.inl ?_))
  decide

/-- Characters of a `splitWsAux` piece come from the input or the
accumulator. -/
lemma mem_splitWsAux : ∀ (l acc p : Text), p ∈ splitWsAux acc l → ∀ c ∈ p, c ∈ l ∨ c ∈ acc := by
  intro l
  induction l with
  | nil =>
    intro acc p hp c hc
    unfold splitWsAux at hp
    split_ifs at hp with h
    · exact absurd hp (List.not_mem_nil p)
    · rw [List.mem_singleton] at hp
      subst hp
      exact Or.inr (List.mem_reverse.mp hc)
  | cons d ds ih =>
    intro acc p hp c hc
    unfold splitWsAux at hp
    split_ifs at hp with h1 h2
    · rcases ih [] p hp c hc with h | h
      · exact Or.inl (List.mem_cons_of_mem d h)
      · exact absurd h (List.not_mem_nil c)
    · rcases List.mem_cons.mp hp with h | h
      · subst h
        exact Or.inr (List.mem_reverse.mp hc)
      · rcases ih [] p h c hc with h' | h'
        · exact Or.inl (List.mem_cons_of_mem d h')
        · exact absurd h' (List.not_mem_nil c)
    · rcases ih (d :: acc) p hp c hc with h | h
      · exact Or.inl (List.mem_cons_of_mem d h)
      · rcases List.mem_cons.mp h with h' | h'
        · subst h'
          exact Or.inl (List.mem_cons_self c ds)
        · exact Or.inr h'

/-- Characters of `joinSpace ps` are spaces or come from some piece. -/
lemma mem_joinSpace : ∀ (ps : List Text) (c : Char),
    c ∈ joinSpace ps → c = ' ' ∨ ∃ p ∈ ps, c ∈ p
  | [], c, h => by
    rw [show joinSpace [] = [] from rfl] at h
    exact absurd h (List.not_mem_nil c)
  | [p], c, h => Or.inr ⟨p, List.mem_singleton_self p, by simpa [joinSpace] using h⟩
  | p :: q :: ps, c, h => by
    rw [show joinSpace (p :: q :: ps) = p ++ ' ' :: joinSpace (q :: ps) from rfl] at h
    rcases List.mem_append.mp h with h1 | h2
    · exact Or.inr ⟨p, List.mem_cons_self p (q :: ps), h1⟩
    · rcases List.mem_cons.mp h2 with h3 | h4
      · exact Or.inl h3
      · rcases mem_joinSpace (q :: ps) c h4 with h5 | ⟨r, hr, hcr⟩
        · exact Or.inl h5
        · exact Or.inr ⟨r, List.mem_cons_of_mem p hr, hcr⟩

/-- C9: preprocessing is total in the order lowercase, URL strip, email
strip, character filter, whitespace collapse, tokenize, stopword/short
drop, lemmatize; the cleaned text only ever contains letters, whitespace
and `! ? .`, and the empty input yields the empty token list and empty
cleaned text (given only that the external tokenizer maps the empty text
to no tokens). -/
theorem claim_C9 :
    (∀ (B : NlpBackend) (t : Text), ∀ c ∈ (preprocess_text B t).2, cleanChar c) ∧
    (∀ B : NlpBackend, B.word_tokenize [] = [] → preprocess_text B [] = ([], [])) := by
  constructor
  · intro B t c hc
    have h2 : (preprocess_text B t).2 =
        joinSpace (splitWs ((mapRuns stripEmailRun
          (mapRuns stripUrlRun (lowerText t))).filter keepChar)) := rfl
    rw [h2] at hc
    rcases mem_joinSpace _ c hc with h | ⟨p, hp, hcp⟩
    · subst h
      exact cleanChar_space
    · rcases mem_splitWsAux _ [] p hp c hcp with h | h
      · exact keepChar_cleanChar c (List.of_mem_filter h)
      · exact absurd h (List.not_mem_nil c)
  · intro B hw
    have h0 : preprocess_text B [] =
        (((B.word_tokenize []).filter
            (fun tok => !(B.stop_words (lowerText tok)) && decide (tok.length > 2))).map
          B.lemmatize, []) := rfl
    rw [h0, hw]
    simp

/-- C1: for every input text, the analysis label is one of positive,
negative, neutral and the confidence lies in `[0, 1]` — assuming only the
documented ranges of the external scorers (VADER compound and TextBlob
polarity in `[-1, 1]`); this includes the signal combinations in which no
clamped boost branch fires. -/
theorem claim_C1 (B : NlpBackend)
    (hv : ∀ t, |(B.vader t).compound| ≤ 1)
    (hp : ∀ t, |(B.textblob t).polarity| ≤ 1) (t : Text) :
    ((get_detailed_analysis B t).overall_sentiment = .positive ∨
     (get_detailed_analysis B t).overall_sentiment = .negative ∨
     (get_detailed_analysis B t).overall_sentiment = .neutral) ∧
    0 ≤ (get_detailed_analysis B t).confidence ∧
    (get_detailed_analysis B t).confidence ≤ 1 := by
  constructor
  · generalize (get_detailed_analysis B t).overall_sentiment = s
    cases s
    · exact Or.inl rfl
    · exact Or.inr (Or.inl rfl)
    · exact Or.inr (Or.inr rfl)
  · have hconf : (get_detailed_analysis B t).confidence =
        round3 (overall_confidence (round3 (B.vader t).compound)
          (round3 (B.textblob t).polarity)
          ((B.sent_tokenize t).map (fun s =>
            { sentence := stripText s
              sentiment := classify_sentiment (analyze_sentiment_vader B s).compound
              confidence := |(analyze_sentiment_vader B s).compound| }))
          (lowerText t)) := rfl
    rw [hconf]
    have hcomp : |round3 (B.vader t).compound| ≤ 1 := round3_abs_le_one _ (hv t)
    have hpol : |round3 (B.textblob t).polarity| ≤ 1 := round3_abs_le_one _ (hp t)
    have hss : ∀ s ∈ (B.sent_tokenize t).map (fun s =>
        ({ sentence := stripText s
           sentiment := classify_sentiment (analyze_sentiment_vader B s).compound
           confidence := |(analyze_sentiment_vader B s).compound| } : SentenceSentiment)),
        0 ≤ s.confidence ∧ s.confidence ≤ 1 := by
      intro s hsmem
      rw [List.mem_map] at hsmem
      obtain ⟨a, _, rfl⟩ := hsmem
      exact ⟨abs_nonneg _, round3_abs_le_one _ (hv a)⟩
    obtain ⟨g1, g2⟩ := overall_confidence_mem_unit _ _ _ _ hcomp hpol hss
    exact ⟨round3_nonneg _ g1, round3_le_one _ g2⟩

/-- Witness for C1 at the degenerate backend and a concrete text. -/
theorem claim_C1_witness :
    ((get_detailed_analysis zeroBackend (phr "what a film")).overall_sentiment = .positive ∨
     (get_detailed_analysis zeroBackend (phr "what a film")).overall_sentiment = .negative ∨
     (get_detailed_analysis zeroBackend (phr "what a film")).overall_sentiment = .neutral) ∧
    0 ≤ (get_detailed_analysis zeroBackend (phr "what a film")).confidence ∧
    (get_detailed_analysis zeroBackend (phr "what a film")).confidence ≤ 1 :=
  claim_C1 zeroBackend (fun t => by norm_num [zeroBackend])
    (fun t => by norm_num [zeroBackend]) (phr "what a film")

/-- Witness for C9: a concrete character of a concrete cleaned text, and
the empty input at the degenerate backend. -/
theorem claim_C9_witness :
    ('h' ∈ (preprocess_text zeroBackend (phr "hi there!")).2 ∧ cleanChar 'h') ∧
    (zeroBackend.word_tokenize [] = [] ∧ preprocess_text zeroBackend [] = ([], [])) :=
  ⟨⟨by decide, claim_C9.1 zeroBackend (phr "hi there!") 'h' (by decide)⟩,
   ⟨rfl, claim_C9.2 zeroBackend rfl⟩⟩

end NlpApp
